import Mathlib

/-!
Verification of the ROD (robot operation detection) vision pipeline against
its natural-language specification.  The C sources under `rod_c/` are given
a shallow embedding: machine floats become exact rationals (reals where
trigonometry is involved), C arrays become lists or functions out of `Fin`,
out-parameters become explicit results, and the external OpenCV / libcamera
collaborators (marker detection, undistortion, homography estimation,
perspective transform, PnP solving, image filling, hardware capture)
become oracle parameters, since the spec places them out of scope.
-/

namespace ROD

/-! ## Basic geometric data (rod_cv.h / opencv_wrapper.h types) -/

/-- A 2D point, `Point2f` in the C sources, with exact coordinates. -/
structure Point2f where
  x : ℚ
  y : ℚ
deriving DecidableEq, Repr

/-- A 3D point, `Point3f` in the C sources. -/
structure Point3f where
  x : ℚ
  y : ℚ
  z : ℚ
deriving DecidableEq, Repr

/-- The `corners[4][2]` array of a detection: four ordered pixel-space
corner points. -/
structure MarkerCorners where
  c0 : ℚ × ℚ
  c1 : ℚ × ℚ
  c2 : ℚ × ℚ
  c3 : ℚ × ℚ
deriving DecidableEq, Repr

/-- One detected ArUco marker: `DetectedMarker` (id plus its
`corners[4][2]` array in pixel space). -/
structure DetectedMarker where
  id : ℤ
  corners : MarkerCorners
deriving DecidableEq

/-- A localized marker, the `MarkerData` record filled by
`localize_markers_in_playground` and `filter_valid_markers`:
world coordinates, orientation, and the original pixel coordinates. -/
structure MarkerData where
  id : ℤ
  x : ℚ
  y : ℚ
  angle : ℝ
  pixel_x : ℚ
  pixel_y : ℚ

/-! ## rod_config.c -/

/-- The marker category enumeration of `rod_config.h`. -/
inductive MarkerCategory where
  | ROBOT_BLUE
  | ROBOT_YELLOW
  | FIXED
  | BOX_BLUE
  | BOX_EMPTY
  | BOX_YELLOW
  | INVALID
deriving DecidableEq, Repr

/-- Embedding of `rod_config_is_valid_marker_id` (rod_config.c):
robots 1-10, fixed markers 20-23, blue box 36, empty box 41, yellow box 47. -/
def rod_config_is_valid_marker_id (id : ℤ) : Bool :=
  decide ((1 ≤ id ∧ id ≤ 10) ∨ (20 ≤ id ∧ id ≤ 23) ∨ id = 36 ∨ id = 41 ∨ id = 47)

/-- Embedding of `rod_config_get_marker_category` (rod_config.c). -/
def rod_config_get_marker_category (id : ℤ) : MarkerCategory :=
  if 1 ≤ id ∧ id ≤ 5 then .ROBOT_BLUE
  else if 6 ≤ id ∧ id ≤ 10 then .ROBOT_YELLOW
  else if 20 ≤ id ∧ id ≤ 23 then .FIXED
  else if id = 36 then .BOX_BLUE
  else if id = 41 then .BOX_EMPTY
  else if id = 47 then .BOX_YELLOW
  else .INVALID

/-! ## rod_cv.c pure marker geometry -/

/-- Embedding of `calculate_marker_center`: mean of the four corners. -/
def calculate_marker_center (corners : MarkerCorners) : Point2f :=
  { x := (corners.c0.1 + corners.c1.1 + corners.c2.1 + corners.c3.1) / 4
    y := (corners.c0.2 + corners.c1.2 + corners.c2.2 + corners.c3.2) / 4 }

/-- The C library function `atan2f(y, x)`, with its standard mathematical
semantics over the reals (exact, no rounding). -/
noncomputable def atan2 (y x : ℝ) : ℝ :=
  if 0 < x then Real.arctan (y / x)
  else if x < 0 ∧ 0 ≤ y then Real.arctan (y / x) + Real.pi
  else if x < 0 ∧ y < 0 then Real.arctan (y / x) - Real.pi
  else if x = 0 ∧ 0 < y then Real.pi / 2
  else if x = 0 ∧ y < 0 then -(Real.pi / 2)
  else 0

/-- Embedding of `calculate_marker_angle`: the angle of the edge from
corner 0 to corner 1, via `atan2f(dy, dx)`. -/
noncomputable def calculate_marker_angle (corners : MarkerCorners) : ℝ :=
  atan2 ((corners.c1.2 - corners.c0.2 : ℚ) : ℝ) ((corners.c1.1 - corners.c0.1 : ℚ) : ℝ)

/-- Embedding of `calculate_marker_area`: the shoelace formula over the
four corners, halved absolute value. -/
def calculate_marker_area (corners : MarkerCorners) : ℚ :=
  |(corners.c0.1 * corners.c1.2 - corners.c1.1 * corners.c0.2)
    + (corners.c1.1 * corners.c2.2 - corners.c2.1 * corners.c1.2)
    + (corners.c2.1 * corners.c3.2 - corners.c3.1 * corners.c2.2)
    + (corners.c3.1 * corners.c0.2 - corners.c0.1 * corners.c3.2)| / 2

/-- First loop of `normalize_angle`: while the angle exceeds pi,
subtract two pi. -/
noncomputable def normalize_angle_down (a : ℝ) : ℝ :=
  if h : Real.pi < a then normalize_angle_down (a - 2 * Real.pi) else a
termination_by (⌈(a - Real.pi) / (2 * Real.pi)⌉).toNat
decreasing_by
  have hpi : (0:ℝ) < 2 * Real.pi := by positivity
  have h1 : (a - 2 * Real.pi - Real.pi) / (2 * Real.pi)
      = (a - Real.pi) / (2 * Real.pi) - 1 := by
    field_simp
    ring
  have h2 : (0:ℝ) < (a - Real.pi) / (2 * Real.pi) := by
    apply div_pos _ hpi
    linarith
  have h3 : (1:ℤ) ≤ ⌈(a - Real.pi) / (2 * Real.pi)⌉ := by
    exact_mod_cast Int.le_ceil_iff.mpr (by simpa using h2)
  rw [h1, Int.ceil_sub_one]
  omega

/-- Second loop of `normalize_angle`: while the angle is below minus pi,
add two pi. -/
noncomputable def normalize_angle_up (a : ℝ) : ℝ :=
  if h : a < -Real.pi then normalize_angle_up (a + 2 * Real.pi) else a
termination_by (⌈(-Real.pi - a) / (2 * Real.pi)⌉).toNat
decreasing_by
  have hpi : (0:ℝ) < 2 * Real.pi := by positivity
  have h1 : (-Real.pi - (a + 2 * Real.pi)) / (2 * Real.pi)
      = (-Real.pi - a) / (2 * Real.pi) - 1 := by
    field_simp
    ring
  have h2 : (0:ℝ) < (-Real.pi - a) / (2 * Real.pi) := by
    apply div_pos _ hpi
    linarith
  have h3 : (1:ℤ) ≤ ⌈(-Real.pi - a) / (2 * Real.pi)⌉ := by
    exact_mod_cast Int.le_ceil_iff.mpr (by simpa using h2)
  rw [h1, Int.ceil_sub_one]
  omega

/-- Embedding of `normalize_angle`: bring an angle into the range
from minus pi to pi by repeatedly shifting by two pi. -/
noncomputable def normalize_angle (a : ℝ) : ℝ :=
  normalize_angle_up (normalize_angle_down a)

/-- The axis-aligned square marker of the spec's test vector:
corners (0,0), (10,0), (10,10), (0,10). -/
def squareCorners : MarkerCorners :=
  { c0 := (0, 0), c1 := (10, 0), c2 := (10, 10), c3 := (0, 10) }

/-- The same square with every corner rotated by 90 degrees about the
origin, so each (x, y) becomes (-y, x). -/
def squareCornersRot90 : MarkerCorners :=
  { c0 := (0, 0), c1 := (0, 10), c2 := (-10, 10), c3 := (-10, 0) }

theorem normalize_angle_of_mem_range {a : ℝ} (h1 : -Real.pi ≤ a) (h2 : a ≤ Real.pi) :
    normalize_angle a = a := by
  rw [normalize_angle, normalize_angle_down, dif_neg (by linarith),
    normalize_angle_up, dif_neg (by linarith)]

/-- C7: the square marker with corners (0,0),(10,0),(10,10),(0,10) has
center (5,5), edge angle 0 and shoelace area 100; after rotating the
corners by 90 degrees the edge angle, normalized to the range from
minus pi to pi, is exactly pi over 2. -/
theorem C7_square_marker_geometry :
    calculate_marker_center squareCorners = { x := 5, y := 5 }
    ∧ calculate_marker_angle squareCorners = 0
    ∧ calculate_marker_area squareCorners = 100
    ∧ normalize_angle (calculate_marker_angle squareCornersRot90) = Real.pi / 2 := by
  refine ⟨?_, ?_, ?_, ?_⟩
  · unfold calculate_marker_center squareCorners
    norm_num [Point2f.mk.injEq]
  · have h : calculate_marker_angle squareCorners = atan2 0 10 := by
      unfold calculate_marker_angle squareCorners
      norm_num
    rw [h, atan2, if_pos (by norm_num)]
    norm_num [Real.arctan_zero]
  · unfold calculate_marker_area squareCorners
    norm_num
  · have h : calculate_marker_angle squareCornersRot90 = atan2 10 0 := by
      unfold calculate_marker_angle squareCornersRot90
      norm_num
    have h2 : atan2 10 0 = Real.pi / 2 := by
      rw [atan2, if_neg (by norm_num), if_neg (by norm_num), if_neg (by norm_num),
        if_pos (by norm_num)]
    rw [h, h2]
    have hpi := Real.pi_pos
    exact normalize_angle_of_mem_range (by linarith) (by linarith)

/-! ## Marker Localizer (localize_markers_in_playground, rod_cv.c) -/

/-- Loop body of `localize_markers_in_playground`.  The second argument is
the remaining output capacity (`max_markers - valid_count`); the oracle
`pt` is the external `perspective_transform` applied with the caller's
inverse homography, returning `none` on numerical failure.  Invalid ids
are skipped; on transform failure the marker is emitted with its pixel
center copied into the world fields. -/
noncomputable def localizeLoop :
    List DetectedMarker → ℕ → (Point2f → Option Point2f) → List MarkerData
  | [], _, _ => []
  | _ :: _, 0, _ => []
  | m :: rest, cap + 1, pt =>
    if rod_config_is_valid_marker_id m.id then
      let center := calculate_marker_center m.corners
      let angle := calculate_marker_angle m.corners
      match pt center with
      | none =>
        { id := m.id, x := center.x, y := center.y, angle := angle,
          pixel_x := center.x, pixel_y := center.y } :: localizeLoop rest cap pt
      | some world =>
        { id := m.id, x := world.x, y := world.y, angle := angle,
          pixel_x := center.x, pixel_y := center.y } :: localizeLoop rest cap pt
    else
      localizeLoop rest (cap + 1) pt

/-- Embedding of `localize_markers_in_playground`.  `none` models the -1
error return (NULL detection list, NULL output array or homography, or
non-positive capacity); otherwise the returned list holds the emitted
markers and its length is the returned `valid_count`. -/
noncomputable def localize_markers_in_playground
    (detection : Option (List DetectedMarker)) (max_markers : ℤ)
    (pt : Point2f → Option Point2f) : Option (List MarkerData) :=
  match detection with
  | none => none
  | some d =>
    if max_markers ≤ 0 then none
    else some (localizeLoop d max_markers.toNat pt)

/-- Modelled from the spec: the Marker Localizer of section 4.4, which
for each valid detection computes the pixel center, undistorts that
center for lens distortion (`undistort`), and applies the inverse
homography (`pt`) to the undistorted center to obtain world
coordinates, keeping the original pixel coordinates in the pixel
fields.  This comparator exists only to exhibit the divergence of the
code from the spec's stated pipeline. -/
noncomputable def localize_markers_spec_model
    (detection : List DetectedMarker) (max_markers : ℕ)
    (undistort : Point2f → Point2f) (pt : Point2f → Option Point2f) : List MarkerData :=
  match detection, max_markers with
  | [], _ => []
  | _ :: _, 0 => []
  | m :: rest, cap + 1 =>
    if rod_config_is_valid_marker_id m.id then
      let center := calculate_marker_center m.corners
      let angle := calculate_marker_angle m.corners
      match pt (undistort center) with
      | none =>
        { id := m.id, x := center.x, y := center.y, angle := angle,
          pixel_x := center.x, pixel_y := center.y } ::
          localize_markers_spec_model rest cap undistort pt
      | some world =>
        { id := m.id, x := world.x, y := world.y, angle := angle,
          pixel_x := center.x, pixel_y := center.y } ::
          localize_markers_spec_model rest cap undistort pt
    else
      localize_markers_spec_model rest (cap + 1) undistort pt

/-- C1: the code of `localize_markers_in_playground` applies the inverse
homography directly to the raw pixel center and never undistorts it,
diverging from the spec's undistort-then-transform pipeline.  At a
marker of id 1 with center (2,2), an undistortion map sending (2,2) to
(3,3) and the identity homography application, the code emits world
(2,2) while the spec pipeline emits world (3,3); both keep pixel
coordinates (2,2). -/
theorem C1_localizer_skips_undistortion :
    (localize_markers_in_playground
        (some [⟨1, ⟨(0,0),(4,0),(4,4),(0,4)⟩⟩]) 8 (fun p => some p)).map
        (fun l => l.map fun md => (md.x, md.y, md.pixel_x, md.pixel_y))
      = some [(2, 2, 2, 2)]
    ∧ (localize_markers_spec_model [⟨1, ⟨(0,0),(4,0),(4,4),(0,4)⟩⟩] 8
        (fun p => { x := p.x + 1, y := p.y + 1 }) (fun p => some p)).map
        (fun md => (md.x, md.y, md.pixel_x, md.pixel_y))
      = [(3, 3, 2, 2)]
    ∧ (localize_markers_in_playground
        (some [⟨1, ⟨(0,0),(4,0),(4,4),(0,4)⟩⟩]) 8 (fun p => some p)).map
        (fun l => l.map fun md => (md.x, md.y))
      ≠ some ((localize_markers_spec_model [⟨1, ⟨(0,0),(4,0),(4,4),(0,4)⟩⟩] 8
        (fun p => { x := p.x + 1, y := p.y + 1 }) (fun p => some p)).map
        (fun md => (md.x, md.y))) := by
  refine ⟨?_, ?_, ?_⟩ <;>
    norm_num [localize_markers_in_playground, localizeLoop, localize_markers_spec_model,
      calculate_marker_center, rod_config_is_valid_marker_id]

/-- C6: when the inverse-homography application fails numerically (the
`perspective_transform` oracle returns no point) on a valid detection,
the Marker Localizer still emits the marker, with the pixel-center
coordinates copied into the world fields, and the emitted count grows
by one rather than dropping the marker. -/
theorem C6_transform_failure_fallback :
    ∀ (m : DetectedMarker) (rest : List DetectedMarker) (cap : ℕ)
      (pt : Point2f → Option Point2f),
      rod_config_is_valid_marker_id m.id = true →
      pt (calculate_marker_center m.corners) = none →
      localizeLoop (m :: rest) (cap + 1) pt =
        { id := m.id,
          x := (calculate_marker_center m.corners).x,
          y := (calculate_marker_center m.corners).y,
          angle := calculate_marker_angle m.corners,
          pixel_x := (calculate_marker_center m.corners).x,
          pixel_y := (calculate_marker_center m.corners).y } :: localizeLoop rest cap pt
      ∧ (localizeLoop (m :: rest) (cap + 1) pt).length
          = (localizeLoop rest cap pt).length + 1 := by
  intro m rest cap pt hvalid hpt
  have h : localizeLoop (m :: rest) (cap + 1) pt =
      { id := m.id,
        x := (calculate_marker_center m.corners).x,
        y := (calculate_marker_center m.corners).y,
        angle := calculate_marker_angle m.corners,
        pixel_x := (calculate_marker_center m.corners).x,
        pixel_y := (calculate_marker_center m.corners).y } :: localizeLoop rest cap pt := by
    rw [localizeLoop, if_pos hvalid]
    simp only [hpt]
  exact ⟨h, by rw [h, List.length_cons]⟩

/-- Witness for C6 at a concrete marker of id 1 with center (2,2) and an
always-failing perspective transform. -/
theorem C6_transform_failure_fallback_witness :
    rod_config_is_valid_marker_id ((1:ℤ)) = true
    ∧ (fun _ : Point2f => (none : Option Point2f))
        (calculate_marker_center ⟨(0,0),(4,0),(4,4),(0,4)⟩) = none
    ∧ (localizeLoop [⟨1, ⟨(0,0),(4,0),(4,4),(0,4)⟩⟩] 1 (fun _ => none)).length
        = (localizeLoop [] 0 (fun _ => none)).length + 1 :=
  ⟨by decide, rfl,
    (C6_transform_failure_fallback ⟨1, ⟨(0,0),(4,0),(4,4),(0,4)⟩⟩ [] 0
      (fun _ => none) (by decide) rfl).2⟩

/-! ## Field Registration (create_field_mask_from_image, rod_cv.c)

The external OpenCV collaborators (`fisheye_undistort_points`,
`find_homography`, `perspective_transform`, `create_empty_image`,
`fill_poly`) are oracle parameters; the produced mask image is
represented by the four clipped polygon corners handed to `fill_poly`.
The second component of the result models the caller's
`homography_inv` out-parameter: `none` means it was left untouched. -/

/-- The `tag_irl` table: known real-world positions (mm) of the four
fixed tags. -/
def tag_irl : List (ℤ × ℚ × ℚ) :=
  [(20, 600, 600), (21, 600, 2400), (22, 1400, 600), (23, 1400, 2400)]

/-- Inner loop of the correspondence search: first row of `tag_irl`
whose id matches, if any. -/
def findFixedTag (id : ℤ) : Option (ℚ × ℚ) :=
  (tag_irl.find? (fun t => t.1 == id)).map (fun t => t.2)

/-- Outer correspondence-collection loop of `create_field_mask_from_image`
(and its `found_count < 4` bound): for each detection matching a fixed
tag, record (id, real-world position, pixel center). -/
def collectTagsLoop : List DetectedMarker → ℕ → List (ℤ × Point2f × Point2f)
  | [], _ => []
  | _ :: _, 0 => []
  | m :: rest, cap + 1 =>
    match findFixedTag m.id with
    | some w =>
      (m.id, { x := w.1, y := w.2 }, calculate_marker_center m.corners)
        :: collectTagsLoop rest cap
    | none => collectTagsLoop rest (cap + 1)

/-- The correspondences collected by `create_field_mask_from_image`. -/
def collectFixedTags (dets : List DetectedMarker) : List (ℤ × Point2f × Point2f) :=
  collectTagsLoop dets 4

/-- The playing-field rectangle in real-world mm, as in the C source. -/
def field_corners : List Point2f :=
  [{ x := 0, y := 0 }, { x := 2000, y := 0 }, { x := 2000, y := 3000 }, { x := 0, y := 3000 }]

/-- Clamping of one projected corner to the image bounds, exactly as the
two sequential `if` statements of the C source. -/
def clipPoint (w h : ℤ) (p : Point2f) : Point2f :=
  { x := if (w : ℚ) ≤ (if p.x < 0 then 0 else p.x) then (w : ℚ) - 1
         else (if p.x < 0 then 0 else p.x),
    y := if (h : ℚ) ≤ (if p.y < 0 then 0 else p.y) then (h : ℚ) - 1
         else (if p.y < 0 then 0 else p.y) }

/-- Embedding of `create_field_mask_from_image`.  Result: (mask polygon
if a mask image is returned, homography_inv contents if written). -/
def create_field_mask_from_image
    (detection : Option (List DetectedMarker))
    (output_width output_height : ℤ) (scale_y : ℚ) (wantHinv : Bool)
    (undistortPts : List Point2f → Option (List Point2f))
    (findH : List Point2f → List Point2f → Option (List ℚ))
    (perspT : List ℚ → List Point2f → Option (List Point2f))
    (createOk fillOk : Bool) :
    Option (List Point2f) × Option (List ℚ) :=
  match detection with
  | none => (none, none)
  | some dets =>
    if dets.length = 0 then (none, none)
    else
      let corr := collectFixedTags dets
      if corr.length ≠ 4 then (none, none)
      else
        let src_pts := corr.map (fun c => c.2.1)
        let dst_pts := corr.map (fun c => c.2.2)
        match undistortPts dst_pts with
        | none => (none, none)
        | some dst_und =>
          match findH src_pts dst_und with
          | none => (none, none)
          | some hm =>
            let hinv : Option (List ℚ) :=
              if wantHinv then
                match undistortPts dst_pts with
                | none => none
                | some dst_und2 => findH dst_und2 src_pts
              else none
            match perspT hm field_corners with
            | none => (none, hinv)
            | some field_img =>
              let q0 := field_img.getD 0 { x := 0, y := 0 }
              let q1 := field_img.getD 1 { x := 0, y := 0 }
              let q2 := field_img.getD 2 { x := 0, y := 0 }
              let q3 := field_img.getD 3 { x := 0, y := 0 }
              let cy := (q0.y + q1.y + q2.y + q3.y) / 4
              let sc : Point2f → Point2f :=
                fun p => { x := p.x, y := cy + (p.y - cy) * scale_y }
              let scaled := if scale_y ≠ 1 then [sc q0, sc q1, sc q2, sc q3]
                            else [q0, q1, q2, q3]
              let clipped := scaled.map (clipPoint output_width output_height)
              if createOk = false then (none, hinv)
              else if fillOk = false then (none, hinv)
              else (some clipped, hinv)

/-- Undistortion oracle that succeeds and returns the points unchanged. -/
def oracleIdUndistort : List Point2f → Option (List Point2f) := fun pts => some pts

/-- The identity 3x3 homography, row-major like the C `float*`. -/
def identityHomography : List ℚ := [1, 0, 0, 0, 1, 0, 0, 0, 1]

/-- Homography-estimation oracle that always succeeds with the identity. -/
def oracleConstH : List Point2f → List Point2f → Option (List ℚ) :=
  fun _ _ => some identityHomography

/-- Perspective-transform oracle that applies the identity mapping. -/
def oracleIdPerspective : List ℚ → List Point2f → Option (List Point2f) :=
  fun _ pts => some pts

/-- A degenerate marker whose four corners coincide at `p`, so its pixel
center is exactly `p`. -/
def cornersAt (p : ℚ × ℚ) : MarkerCorners := ⟨p, p, p, p⟩

/-- Four detections that all carry the same fixed id 20. -/
def dupTwentyDets : List DetectedMarker :=
  [⟨20, cornersAt (1, 1)⟩, ⟨20, cornersAt (2, 2)⟩,
   ⟨20, cornersAt (3, 3)⟩, ⟨20, cornersAt (4, 4)⟩]

/-- Detections carrying fixed ids 20, 20, 21, 22: only three distinct
fixed markers, with marker 23 absent. -/
def threeDistinctDets : List DetectedMarker :=
  [⟨20, cornersAt (1, 1)⟩, ⟨20, cornersAt (2, 2)⟩,
   ⟨21, cornersAt (3, 3)⟩, ⟨22, cornersAt (4, 4)⟩]

/-- Detections carrying each fixed id 20, 21, 22, 23 exactly once. -/
def fourProperDets : List DetectedMarker :=
  [⟨20, cornersAt (1, 1)⟩, ⟨21, cornersAt (2, 2)⟩,
   ⟨22, cornersAt (3, 3)⟩, ⟨23, cornersAt (4, 4)⟩]

theorem findFixedTag_id_cases {id : ℤ} {w : ℚ × ℚ} (h : findFixedTag id = some w) :
    id = 20 ∨ id = 21 ∨ id = 22 ∨ id = 23 := by
  unfold findFixedTag at h
  cases hf : tag_irl.find? (fun t => t.1 == id) with
  | none => rw [hf] at h; simp at h
  | some t =>
    have ht := List.find?_some hf
    have hm := List.mem_of_find?_eq_some hf
    have : t.1 = id := by simpa using ht
    unfold tag_irl at hm
    simp only [List.mem_cons, List.not_mem_nil, or_false] at hm
    rcases hm with rfl | rfl | rfl | rfl <;> simp_all

theorem collectTagsLoop_id_mem :
    ∀ (dets : List DetectedMarker) (cap : ℕ) (c : ℤ × Point2f × Point2f),
      c ∈ collectTagsLoop dets cap → c.1 = 20 ∨ c.1 = 21 ∨ c.1 = 22 ∨ c.1 = 23 := by
  intro dets
  induction dets with
  | nil => intro cap c hc; simp [collectTagsLoop] at hc
  | cons m rest ih =>
    intro cap c hc
    cases cap with
    | zero => simp [collectTagsLoop] at hc
    | succ k =>
      rw [collectTagsLoop] at hc
      cases hf : findFixedTag m.id with
      | none => rw [hf] at hc; exact ih _ c hc
      | some w =>
        rw [hf] at hc
        rcases List.mem_cons.mp hc with rfl | hmem
        · exact findFixedTag_id_cases hf
        · exact ih _ c hmem

theorem create_field_mask_fail_of_not_four
    {dets : List DetectedMarker} (h : (collectFixedTags dets).length ≠ 4)
    (output_width output_height : ℤ) (scale_y : ℚ) (wantHinv : Bool)
    (undistortPts : List Point2f → Option (List Point2f))
    (findH : List Point2f → List Point2f → Option (List ℚ))
    (perspT : List ℚ → List Point2f → Option (List Point2f))
    (createOk fillOk : Bool) :
    create_field_mask_from_image (some dets) output_width output_height scale_y
      wantHinv undistortPts findH perspT createOk fillOk = (none, none) := by
  unfold create_field_mask_from_image
  by_cases h0 : dets.length = 0
  · simp [h0]
  · simp [h0, h]

/-- C2 counterexample: four detections that all carry id 20 fill all four
correspondence slots, and with well-behaved external oracles the
registration succeeds and writes the inverse homography even though the
collected ids are not four distinct fixed-marker ids. -/
theorem C2_counterexample_duplicate_ids_accepted :
    (collectFixedTags dupTwentyDets).map (fun c => c.1) = [20, 20, 20, 20]
    ∧ ¬ List.Pairwise (· ≠ ·) ((collectFixedTags dupTwentyDets).map (fun c => c.1))
    ∧ ((create_field_mask_from_image (some dupTwentyDets) 100 100 1 true
        oracleIdUndistort oracleConstH oracleIdPerspective true true).1).isSome = true
    ∧ ((create_field_mask_from_image (some dupTwentyDets) 100 100 1 true
        oracleIdUndistort oracleConstH oracleIdPerspective true true).2).isSome = true := by
  refine ⟨?_, ?_, ?_, ?_⟩ <;>
    norm_num [create_field_mask_from_image, collectFixedTags, collectTagsLoop,
      findFixedTag, tag_irl, dupTwentyDets, cornersAt, calculate_marker_center,
      oracleIdUndistort, oracleConstH, oracleIdPerspective, identityHomography,
      field_corners, clipPoint]

/-- C2 (amended): `create_field_mask_from_image` succeeds (returns a mask
or writes the inverse homography) only if exactly four fixed-tag
correspondences were collected, each for an id among 20, 21, 22, 23 —
but the same fixed id may account for several of the four. -/
theorem C2_success_requires_four_correspondences :
    ∀ (dets : List DetectedMarker) (output_width output_height : ℤ) (scale_y : ℚ)
      (wantHinv : Bool)
      (undistortPts : List Point2f → Option (List Point2f))
      (findH : List Point2f → List Point2f → Option (List ℚ))
      (perspT : List ℚ → List Point2f → Option (List Point2f))
      (createOk fillOk : Bool),
      ((create_field_mask_from_image (some dets) output_width output_height scale_y
          wantHinv undistortPts findH perspT createOk fillOk).1.isSome
        ∨ (create_field_mask_from_image (some dets) output_width output_height scale_y
          wantHinv undistortPts findH perspT createOk fillOk).2.isSome) →
      (collectFixedTags dets).length = 4
      ∧ ∀ c ∈ collectFixedTags dets, c.1 = 20 ∨ c.1 = 21 ∨ c.1 = 22 ∨ c.1 = 23 := by
  intro dets w h sy want und fh pt co fo hsucc
  by_cases hlen : (collectFixedTags dets).length = 4
  · exact ⟨hlen, fun c hc => collectTagsLoop_id_mem dets 4 c hc⟩
  · rw [create_field_mask_fail_of_not_four hlen w h sy want und fh pt co fo] at hsucc
    simp at hsucc

/-- Witness for the amended C2 at the proper four-marker input with
well-behaved oracles. -/
theorem C2_success_requires_four_correspondences_witness :
    ((create_field_mask_from_image (some fourProperDets) 100 100 1 true
        oracleIdUndistort oracleConstH oracleIdPerspective true true).1.isSome
      ∨ (create_field_mask_from_image (some fourProperDets) 100 100 1 true
        oracleIdUndistort oracleConstH oracleIdPerspective true true).2.isSome)
    ∧ (collectFixedTags fourProperDets).length = 4 :=
  ⟨by
    left
    norm_num [create_field_mask_from_image, collectFixedTags, collectTagsLoop,
      findFixedTag, tag_irl, fourProperDets, cornersAt, calculate_marker_center,
      oracleIdUndistort, oracleConstH, oracleIdPerspective, identityHomography,
      field_corners, clipPoint],
   (C2_success_requires_four_correspondences fourProperDets 100 100 1 true
      oracleIdUndistort oracleConstH oracleIdPerspective true true
      (by
        left
        norm_num [create_field_mask_from_image, collectFixedTags, collectTagsLoop,
          findFixedTag, tag_irl, fourProperDets, cornersAt, calculate_marker_center,
          oracleIdUndistort, oracleConstH, oracleIdPerspective, identityHomography,
          field_corners, clipPoint])).1⟩

/-- C5 counterexample: with detections of ids 20, 20, 21, 22 the fixed
marker 23 is never detected — only three of the four fixed reference
markers appear — yet registration succeeds and writes the inverse
homography, because duplicates fill the four correspondence slots. -/
theorem C5_counterexample_three_distinct_markers :
    threeDistinctDets.map (fun m => m.id) = [20, 20, 21, 22]
    ∧ (∀ m ∈ threeDistinctDets, m.id ≠ 23)
    ∧ ((create_field_mask_from_image (some threeDistinctDets) 100 100 1 true
        oracleIdUndistort oracleConstH oracleIdPerspective true true).1).isSome = true
    ∧ ((create_field_mask_from_image (some threeDistinctDets) 100 100 1 true
        oracleIdUndistort oracleConstH oracleIdPerspective true true).2).isSome = true := by
  refine ⟨?_, ?_, ?_, ?_⟩ <;>
    norm_num [create_field_mask_from_image, collectFixedTags, collectTagsLoop,
      findFixedTag, tag_irl, threeDistinctDets, cornersAt, calculate_marker_center,
      oracleIdUndistort, oracleConstH, oracleIdPerspective, identityHomography,
      field_corners, clipPoint]

/-- C5 (amended): whenever fewer than four fixed-tag correspondences are
collected (in particular whenever fewer than four fixed-marker
detections are present), `create_field_mask_from_image` fails with a
NULL mask and the caller's inverse homography is left completely
untouched; the same holds when detection itself returns nothing. -/
theorem C5_insufficient_refs_leave_homography_untouched :
    ∀ (dets : List DetectedMarker) (output_width output_height : ℤ) (scale_y : ℚ)
      (wantHinv : Bool)
      (undistortPts : List Point2f → Option (List Point2f))
      (findH : List Point2f → List Point2f → Option (List ℚ))
      (perspT : List ℚ → List Point2f → Option (List Point2f))
      (createOk fillOk : Bool),
      (collectFixedTags dets).length < 4 →
      create_field_mask_from_image (some dets) output_width output_height scale_y
          wantHinv undistortPts findH perspT createOk fillOk = (none, none)
      ∧ create_field_mask_from_image none output_width output_height scale_y
          wantHinv undistortPts findH perspT createOk fillOk = (none, none) := by
  intro dets w h sy want und fh pt co fo hlt
  refine ⟨create_field_mask_fail_of_not_four (by omega) w h sy want und fh pt co fo, ?_⟩
  rfl

/-- Witness for the amended C5 at a single fixed-marker detection. -/
theorem C5_insufficient_refs_leave_homography_untouched_witness :
    (collectFixedTags [⟨21, cornersAt (3, 3)⟩]).length < 4
    ∧ create_field_mask_from_image (some [⟨21, cornersAt (3, 3)⟩]) 100 100 1 true
        oracleIdUndistort oracleConstH oracleIdPerspective true true = (none, none) :=
  ⟨by norm_num [collectFixedTags, collectTagsLoop, findFixedTag, tag_irl],
   (C5_insufficient_refs_leave_homography_untouched [⟨21, cornersAt (3, 3)⟩]
      100 100 1 true oracleIdUndistort oracleConstH oracleIdPerspective true true
      (by norm_num [collectFixedTags, collectTagsLoop, findFixedTag, tag_irl])).1⟩

/-! ## Playground Transform Estimator
(compute_camera_to_playground_transform, rod_cv.c)

The external `solve_pnp` is an oracle from (object points, image points)
to an optional (rvec, tvec) pair; `none` models `success == false`.  The
camera matrix and distortion coefficients are opaque floats passed
straight through to the solver, so they are folded into the oracle. -/

/-- Type of the external `solve_pnp` collaborator. -/
def SolvePnP : Type :=
  List Point3f → List Point2f → Option (Point3f × Point3f)

/-- The `fixed_markers_playground` table: known playground positions (mm)
of the four fixed markers, including their 30 mm height. -/
def fixed_markers_playground : List (ℤ × Point3f) :=
  [(20, ⟨600, 600, 30⟩), (21, ⟨600, 2400, 30⟩),
   (22, ⟨1400, 600, 30⟩), (23, ⟨1400, 2400, 30⟩)]

/-- Inner loop of the fixed-marker search: first row of
`fixed_markers_playground` whose id matches, if any. -/
def findFixedPlayground (id : ℤ) : Option Point3f :=
  (fixed_markers_playground.find? (fun t => t.1 == id)).map (fun t => t.2)

/-- A detection is on a fixed marker when its id has a playground row. -/
def isFixedDet (m : DetectedMarker) : Bool :=
  (findFixedPlayground m.id).isSome

/-- The playground position of a fixed detection. -/
def pgOf (m : DetectedMarker) : Point3f :=
  (findFixedPlayground m.id).getD ⟨0, 0, 0⟩

/-- The marker-local 3D corner coordinates built by
`estimate_marker_pose_camera_frame` from the marker size. -/
def object_points (marker_size : ℚ) : List Point3f :=
  [⟨-(marker_size / 2), marker_size / 2, 0⟩,
   ⟨marker_size / 2, marker_size / 2, 0⟩,
   ⟨marker_size / 2, -(marker_size / 2), 0⟩,
   ⟨-(marker_size / 2), -(marker_size / 2), 0⟩]

/-- The 2D corner array handed to `solve_pnp`. -/
def image_points (c : MarkerCorners) : List Point2f :=
  [⟨c.c0.1, c.c0.2⟩, ⟨c.c1.1, c.c1.2⟩, ⟨c.c2.1, c.c2.2⟩, ⟨c.c3.1, c.c3.2⟩]

/-- Embedding of `estimate_marker_pose_camera_frame`. -/
def estimate_marker_pose_camera_frame
    (corners : MarkerCorners) (marker_size : ℚ) (solve : SolvePnP) :
    Option (Point3f × Point3f) :=
  solve (object_points marker_size) (image_points corners)

/-- Correspondence-collection loop of
`compute_camera_to_playground_transform` with its `found_count < 4`
bound: each fixed-id detection with a successful pose solve contributes
a (camera tvec, playground position) pair. -/
def collectPoses : List DetectedMarker → ℕ → ℚ → SolvePnP → List (Point3f × Point3f)
  | [], _, _, _ => []
  | _ :: _, 0, _, _ => []
  | m :: rest, cap + 1, sz, solve =>
    match findFixedPlayground m.id with
    | none => collectPoses rest (cap + 1) sz solve
    | some pg =>
      match estimate_marker_pose_camera_frame m.corners sz solve with
      | some pose => (pose.2, pg) :: collectPoses rest cap sz solve
      | none => collectPoses rest (cap + 1) sz solve

/-- Centroid of the four collected points, dividing by 4 exactly as the
C source does. -/
def centroid4 (l : List Point3f) : Point3f :=
  ⟨(l.map (fun p => p.x)).sum / 4,
   (l.map (fun p => p.y)).sum / 4,
   (l.map (fun p => p.z)).sum / 4⟩

/-- The 3x3 cross-covariance of the centered point sets, row-major; the
C source computes it and then never uses it. -/
def cross_covariance (pairs : List (Point3f × Point3f)) (cc pc : Point3f) : List ℚ :=
  [(pairs.map (fun p => (p.2.x - pc.x) * (p.1.x - cc.x))).sum,
   (pairs.map (fun p => (p.2.x - pc.x) * (p.1.y - cc.y))).sum,
   (pairs.map (fun p => (p.2.x - pc.x) * (p.1.z - cc.z))).sum,
   (pairs.map (fun p => (p.2.y - pc.y) * (p.1.x - cc.x))).sum,
   (pairs.map (fun p => (p.2.y - pc.y) * (p.1.y - cc.y))).sum,
   (pairs.map (fun p => (p.2.y - pc.y) * (p.1.z - cc.z))).sum,
   (pairs.map (fun p => (p.2.z - pc.z) * (p.1.x - cc.x))).sum,
   (pairs.map (fun p => (p.2.z - pc.z) * (p.1.y - cc.y))).sum,
   (pairs.map (fun p => (p.2.z - pc.z) * (p.1.z - cc.z))).sum]

/-- Embedding of `compute_camera_to_playground_transform`.  `none`
models the -1 return (NULL arguments or fewer than four
correspondences); `some` carries the row-major 4x4 matrix, whose
rotation block the code fixes to the identity (scale 1) and whose
translation column is playground centroid minus camera centroid. -/
def compute_camera_to_playground_transform
    (detection : Option (List DetectedMarker)) (marker_size : ℚ)
    (solve : SolvePnP) : Option (List ℚ) :=
  match detection with
  | none => none
  | some d =>
    let pairs := collectPoses d 4 marker_size solve
    if pairs.length < 4 then none
    else
      let cc := centroid4 (pairs.map (fun p => p.1))
      let pc := centroid4 (pairs.map (fun p => p.2))
      let _hcov := cross_covariance pairs cc pc
      some [1, 0, 0, pc.x - cc.x,
            0, 1, 0, pc.y - cc.y,
            0, 0, 1, pc.z - cc.z,
            0, 0, 0, 1]

theorem centroid4_perm {l1 l2 : List Point3f} (h : l1.Perm l2) :
    centroid4 l1 = centroid4 l2 := by
  unfold centroid4
  rw [(h.map _).sum_eq, (h.map _).sum_eq, (h.map _).sum_eq]

theorem collectPoses_eq_map :
    ∀ (d : List DetectedMarker) (cap : ℕ) (sz : ℚ) (solve : SolvePnP)
      (rv tv : DetectedMarker → Point3f),
      (∀ m ∈ d, isFixedDet m = true →
        solve (object_points sz) (image_points m.corners) = some (rv m, tv m)) →
      (d.filter isFixedDet).length ≤ cap →
      collectPoses d cap sz solve
        = (d.filter isFixedDet).map (fun m => (tv m, pgOf m)) := by
  intro d
  induction d with
  | nil => intro cap sz solve rv tv _ _; simp [collectPoses]
  | cons m rest ih =>
    intro cap sz solve rv tv hsolve hlen
    cases hf : findFixedPlayground m.id with
    | none =>
      have hfix : isFixedDet m = false := by simp [isFixedDet, hf]
      rw [List.filter_cons_of_neg (by simp [hfix])] at hlen ⊢
      cases cap with
      | zero =>
        have : rest.filter isFixedDet = [] := List.length_eq_zero.mp (by omega)
        simp [collectPoses, this]
      | succ k =>
        rw [collectPoses, hf]
        exact ih (k + 1) sz solve rv tv
          (fun x hx => hsolve x (List.mem_cons_of_mem m hx)) hlen
    | some pg =>
      have hfix : isFixedDet m = true := by simp [isFixedDet, hf]
      rw [List.filter_cons_of_pos (by simp [hfix])] at hlen ⊢
      cases cap with
      | zero => simp at hlen
      | succ k =>
        rw [collectPoses, hf]
        have hm : solve (object_points sz) (image_points m.corners)
            = some (rv m, tv m) := hsolve m (List.mem_cons_self m rest) hfix
        rw [estimate_marker_pose_camera_frame, hm]
        have hpg : pgOf m = pg := by simp [pgOf, hf]
        rw [List.map_cons, hpg,
          ih k sz solve rv tv (fun x hx => hsolve x (List.mem_cons_of_mem m hx))
            (by simpa using hlen)]

theorem collectPoses_length_le :
    ∀ (d : List DetectedMarker) (cap : ℕ) (sz : ℚ) (solve : SolvePnP),
      (collectPoses d cap sz solve).length ≤
        (d.filter (fun m => isFixedDet m &&
          (estimate_marker_pose_camera_frame m.corners sz solve).isSome)).length := by
  intro d
  induction d with
  | nil => intro cap sz solve; simp [collectPoses]
  | cons m rest ih =>
    intro cap sz solve
    cases cap with
    | zero => simp [collectPoses]
    | succ k =>
      rw [collectPoses]
      cases hf : findFixedPlayground m.id with
      | none =>
        have : (isFixedDet m && (estimate_marker_pose_camera_frame m.corners sz solve).isSome)
            = false := by simp [isFixedDet, hf]
        rw [List.filter_cons_of_neg (by simp [this])]
        exact ih (k + 1) sz solve
      | some pg =>
        cases hp : estimate_marker_pose_camera_frame m.corners sz solve with
        | none =>
          have : (isFixedDet m && (estimate_marker_pose_camera_frame m.corners sz solve).isSome)
              = false := by simp [hp]
          rw [List.filter_cons_of_neg (by simp [this])]
          exact ih (k + 1) sz solve
        | some pose =>
          have : (isFixedDet m && (estimate_marker_pose_camera_frame m.corners sz solve).isSome)
              = true := by simp [isFixedDet, hf, hp]
          rw [List.filter_cons_of_pos (by simp [this])]
          simpa using ih k sz solve

/-- C3: when the detection list carries a successful camera-frame pose
solve for each of the four fixed markers 20-23 (each appearing once
among the fixed-id detections), the estimator succeeds and returns the
4x4 matrix whose rotation block is the identity and whose translation
column is the playground centroid (1000, 1500, 30) of the four known
positions minus the camera centroid of the four solved positions; with
fewer than four fixed-id detections having successful solves it fails
with -1 (InsufficientReferences). -/
theorem C3_transform_identity_rotation_and_centroid_translation :
    (∀ (d : List DetectedMarker) (sz : ℚ) (solve : SolvePnP)
      (rv tv : DetectedMarker → Point3f),
      ((d.filter isFixedDet).map (fun m => m.id)).Perm [20, 21, 22, 23] →
      (∀ m ∈ d, isFixedDet m = true →
        solve (object_points sz) (image_points m.corners) = some (rv m, tv m)) →
      compute_camera_to_playground_transform (some d) sz solve
        = some [1, 0, 0, 1000 - (centroid4 ((d.filter isFixedDet).map tv)).x,
                0, 1, 0, 1500 - (centroid4 ((d.filter isFixedDet).map tv)).y,
                0, 0, 1, 30 - (centroid4 ((d.filter isFixedDet).map tv)).z,
                0, 0, 0, 1])
    ∧ (∀ (d : List DetectedMarker) (sz : ℚ) (solve : SolvePnP),
      (d.filter (fun m => isFixedDet m &&
        (estimate_marker_pose_camera_frame m.corners sz solve).isSome)).length < 4 →
      compute_camera_to_playground_transform (some d) sz solve = none) := by
  constructor
  · intro d sz solve rv tv hperm hsolve
    have hlen : (d.filter isFixedDet).length = 4 := by
      have := hperm.length_eq
      simpa using this
    have hcoll := collectPoses_eq_map d 4 sz solve rv tv hsolve (by omega)
    have hpairslen : (collectPoses d 4 sz solve).length = 4 := by
      rw [hcoll, List.length_map, hlen]
    have hfst : (collectPoses d 4 sz solve).map (fun p => p.1)
        = (d.filter isFixedDet).map tv := by
      rw [hcoll, List.map_map]
      rfl
    have hsnd : (collectPoses d 4 sz solve).map (fun p => p.2)
        = (d.filter isFixedDet).map pgOf := by
      rw [hcoll, List.map_map]
      rfl
    have hpgmap : (d.filter isFixedDet).map pgOf
        = ((d.filter isFixedDet).map (fun m => m.id)).map
            (fun i => (findFixedPlayground i).getD ⟨0, 0, 0⟩) := by
      rw [List.map_map]
      rfl
    have hpcperm : ((d.filter isFixedDet).map pgOf).Perm
        ([20, 21, 22, 23].map (fun i : ℤ => (findFixedPlayground i).getD ⟨0, 0, 0⟩)) := by
      rw [hpgmap]
      exact hperm.map _
    have hpc : centroid4 ((d.filter isFixedDet).map pgOf) = ⟨1000, 1500, 30⟩ := by
      rw [centroid4_perm hpcperm]
      norm_num [findFixedPlayground, fixed_markers_playground, centroid4]
    rw [compute_camera_to_playground_transform]
    simp only [hpairslen]
    norm_num [hfst, hsnd, hpc]
  · intro d sz solve hlt
    have hle := collectPoses_length_le d 4 sz solve
    rw [compute_camera_to_playground_transform]
    simp only [if_pos (by omega : (collectPoses d 4 sz solve).length < 4)]

/-- Witness for C3: the four fixed markers each detected once with a
constant successful solver tvec (1,2,3) yield the matrix translating by
(999, 1498, 27); a single fixed detection fails. -/
theorem C3_transform_identity_rotation_and_centroid_translation_witness :
    ((fourProperDets.filter isFixedDet).map (fun m => m.id)).Perm [20, 21, 22, 23]
    ∧ compute_camera_to_playground_transform (some fourProperDets) 100
        (fun _ _ => some (⟨0, 0, 0⟩, ⟨1, 2, 3⟩))
      = some [1, 0, 0, 1000 - (centroid4 ((fourProperDets.filter isFixedDet).map
                (fun _ => (⟨1, 2, 3⟩ : Point3f)))).x,
              0, 1, 0, 1500 - (centroid4 ((fourProperDets.filter isFixedDet).map
                (fun _ => (⟨1, 2, 3⟩ : Point3f)))).y,
              0, 0, 1, 30 - (centroid4 ((fourProperDets.filter isFixedDet).map
                (fun _ => (⟨1, 2, 3⟩ : Point3f)))).z,
              0, 0, 0, 1]
    ∧ compute_camera_to_playground_transform (some [⟨21, cornersAt (3, 3)⟩]) 100
        (fun _ _ => none) = none :=
  ⟨by norm_num [fourProperDets, isFixedDet, findFixedPlayground,
      fixed_markers_playground, cornersAt, List.Perm.swap],
   (C3_transform_identity_rotation_and_centroid_translation.1 fourProperDets 100
      (fun _ _ => some (⟨0, 0, 0⟩, ⟨1, 2, 3⟩)) (fun _ => ⟨0, 0, 0⟩) (fun _ => ⟨1, 2, 3⟩)
      (by norm_num [fourProperDets, isFixedDet, findFixedPlayground,
        fixed_markers_playground, cornersAt, List.Perm.swap])
      (fun m _ _ => rfl)),
   (C3_transform_identity_rotation_and_centroid_translation.2 [⟨21, cornersAt (3, 3)⟩] 100
      (fun _ _ => none)
      (by norm_num [isFixedDet, findFixedPlayground, fixed_markers_playground,
        cornersAt, estimate_marker_pose_camera_frame]))⟩

/-! ## Completion Queue (libcamera_wrapper.cpp, wrappers/)

The completed-request FIFO is a list of completion sequence numbers
(front = oldest).  `libcamera_capture_frame` is modelled on the queue
contents observable up to the timeout expiry: the entries already
queued plus those whose completion arrives during the wait; an empty
queue at expiry is the FrameTimeout return. -/

/-- Result of the blocking consumer call. -/
inductive CaptureResult where
  | frame (n : ℕ)
  | timeout
deriving DecidableEq, Repr

/-- Embedding of `libcamera_capture_frame`: wait until the queue is
non-empty or the timeout expires, then pop the front (oldest) entry. -/
def libcamera_capture_frame (completed arrivals : List ℕ) : CaptureResult × List ℕ :=
  match completed ++ arrivals with
  | [] => (.timeout, [])
  | r :: rest => (.frame r, rest)

/-- Events on the completed-request FIFO: a hardware completion pushed
by the callback, or one consumer `capture_frame` call. -/
inductive QueueEvent where
  | complete (n : ℕ)
  | capture
deriving DecidableEq, Repr

/-- One event applied to (queue, delivered-so-far). -/
def queueStep : List ℕ × List ℕ → QueueEvent → List ℕ × List ℕ
  | (q, delivered), .complete n => (q ++ [n], delivered)
  | (q, delivered), .capture =>
    match libcamera_capture_frame q [] with
    | (.frame r, q2) => (q2, delivered ++ [r])
    | (.timeout, _) => (q, delivered)

/-- A whole trace run from the empty queue. -/
def runQueue (tr : List QueueEvent) : List ℕ × List ℕ :=
  tr.foldl queueStep ([], [])

/-- The completion sequence numbers pushed along a trace, in order. -/
def pushedValues : List QueueEvent → List ℕ
  | [] => []
  | .complete n :: rest => n :: pushedValues rest
  | .capture :: rest => pushedValues rest

theorem runQueue_sorted_aux :
    ∀ (tr : List QueueEvent) (q delivered : List ℕ),
      List.Sorted (· ≤ ·) (delivered ++ q) →
      List.Sorted (· ≤ ·) (pushedValues tr) →
      (∀ x ∈ delivered ++ q, ∀ y ∈ pushedValues tr, x ≤ y) →
      List.Sorted (· ≤ ·) (tr.foldl queueStep (q, delivered)).2 := by
  intro tr
  induction tr with
  | nil =>
    intro q delivered h1 _ _
    unfold List.Sorted at h1
    rw [List.pairwise_append] at h1
    simpa using h1.1
  | cons e rest ih =>
    intro q delivered h1 h2 h3
    cases e with
    | complete n =>
      rw [List.foldl_cons]
      have hpv : pushedValues (QueueEvent.complete n :: rest) = n :: pushedValues rest := rfl
      rw [hpv] at h2 h3
      have h2' := (List.sorted_cons.mp h2).2
      have hn := (List.sorted_cons.mp h2).1
      apply ih (q ++ [n]) delivered
      · rw [← List.append_assoc]
        unfold List.Sorted
        rw [List.pairwise_append]
        refine ⟨h1, List.sorted_singleton n, ?_⟩
        intro x hx y hy
        rw [List.mem_singleton] at hy
        rw [hy]
        exact h3 x hx n (List.mem_cons_self n _)
      · exact h2'
      · intro x hx y hy
        rw [← List.append_assoc, List.mem_append] at hx
        rcases hx with hx | hx
        · exact h3 x hx y (List.mem_cons_of_mem n hy)
        · rw [List.mem_singleton] at hx
          subst hx
          exact hn y hy
    | capture =>
      rw [List.foldl_cons]
      have hpv : pushedValues (QueueEvent.capture :: rest) = pushedValues rest := rfl
      rw [hpv] at h2 h3
      cases q with
      | nil =>
        have hstep : queueStep ([], delivered) QueueEvent.capture = ([], delivered) := rfl
        rw [hstep]
        exact ih [] delivered h1 h2 h3
      | cons r rs =>
        have hstep : queueStep (r :: rs, delivered) QueueEvent.capture
            = (rs ++ [], delivered ++ [r]) := rfl
        have hlist : delivered ++ [r] ++ (rs ++ []) = delivered ++ (r :: rs) := by simp
        rw [hstep]
        apply ih (rs ++ []) (delivered ++ [r])
        · rw [hlist]
          exact h1
        · exact h2
        · intro x hx y hy
          apply h3 x _ y hy
          rw [hlist] at hx
          exact hx

/-- C4: the blocking consumer call returns FrameTimeout and delivers no
frame when no completion is available within the timeout; otherwise it
removes and delivers the oldest FIFO entry; consequently, along any
trace whose completions carry non-decreasing sequence numbers, the
delivered frames are in non-decreasing completion order. -/
theorem C4_capture_next_fifo_order :
    (∀ completed arrivals : List ℕ, completed ++ arrivals = [] →
      libcamera_capture_frame completed arrivals = (.timeout, []))
    ∧ (∀ (completed arrivals : List ℕ) (r : ℕ) (rest : List ℕ),
      completed ++ arrivals = r :: rest →
      libcamera_capture_frame completed arrivals = (.frame r, rest))
    ∧ (∀ tr : List QueueEvent, List.Sorted (· ≤ ·) (pushedValues tr) →
      List.Sorted (· ≤ ·) (runQueue tr).2) := by
  refine ⟨?_, ?_, ?_⟩
  · intro completed arrivals h
    rw [libcamera_capture_frame, h]
  · intro completed arrivals r rest h
    rw [libcamera_capture_frame, h]
  · intro tr hsorted
    exact runQueue_sorted_aux tr [] [] (by simp) hsorted (by simp)

/-- Witness for C4: the empty queue times out, a one-element queue
delivers its entry, and the trace push 1, push 2, pop, pop delivers the
sorted list [1, 2]. -/
theorem C4_capture_next_fifo_order_witness :
    libcamera_capture_frame [] [] = (.timeout, [])
    ∧ libcamera_capture_frame [3] [] = (.frame 3, [])
    ∧ List.Sorted (· ≤ ·)
        (runQueue [.complete 1, .complete 2, .capture, .capture]).2 :=
  ⟨C4_capture_next_fifo_order.1 [] [] rfl,
   C4_capture_next_fifo_order.2.1 [3] [] 3 [] rfl,
   C4_capture_next_fifo_order.2.2 [.complete 1, .complete 2, .capture, .capture]
     (by simp [pushedValues, List.sorted_cons])⟩

/-! ## Completion callback (request_completed_handler, wrappers/) -/

/-- The libcamera request status values the handler inspects. -/
inductive RequestStatus where
  | complete
  | cancelled
  | pending
deriving DecidableEq, Repr

/-- Atomic steps taken by the completion handler, in program order:
acquire/release of the global context mutex and of the FIFO mutex,
queue push, condition-variable notify, and hardware resubmission. -/
inductive HandlerEvent where
  | acqCtx
  | relCtx
  | acqQueue
  | relQueue
  | push (r : ℕ)
  | notifyOne
  | resubmit (r : ℕ)
deriving DecidableEq, Repr

/-- Embedding of `request_completed_handler`: the ordered event trace it
executes and the resulting completed-request FIFO.  `active` models
`g_active_context != nullptr` (and a non-null request); the early
return holds only the context mutex. -/
def request_completed_handler (active running : Bool) (status : RequestStatus)
    (r : ℕ) (q : List ℕ) : List HandlerEvent × List ℕ :=
  if active = false then ([.acqCtx, .relCtx], q)
  else
    ([.acqCtx, .acqQueue]
      ++ (if status = .complete then [.push r, .notifyOne] else [])
      ++ [.relQueue]
      ++ (if running = true ∧ status = .complete then [.resubmit r] else [])
      ++ [.relCtx],
     if status = .complete then q ++ [r] else q)

/-- C8: on a successful completion the handler pushes the request onto
the FIFO and notifies one waiting consumer, and, when the running flag
is set, resubmits the same request after releasing the FIFO lock (the
resubmit event follows relQueue in the trace); on a cancelled
completion nothing is pushed, notified or resubmitted and the FIFO is
unchanged. -/
theorem C8_completion_handler_trace :
    ∀ (running : Bool) (r : ℕ) (q : List ℕ),
      HandlerEvent.push r ∈ (request_completed_handler true running .complete r q).1
      ∧ HandlerEvent.notifyOne ∈ (request_completed_handler true running .complete r q).1
      ∧ (request_completed_handler true running .complete r q).2 = q ++ [r]
      ∧ (running = true →
          (request_completed_handler true running .complete r q).1
            = [.acqCtx, .acqQueue, .push r, .notifyOne, .relQueue, .resubmit r, .relCtx])
      ∧ (running = false →
          (request_completed_handler true running .complete r q).1
            = [.acqCtx, .acqQueue, .push r, .notifyOne, .relQueue, .relCtx])
      ∧ (∀ s, HandlerEvent.push s ∉ (request_completed_handler true running .cancelled r q).1)
      ∧ (∀ s, HandlerEvent.resubmit s ∉ (request_completed_handler true running .cancelled r q).1)
      ∧ HandlerEvent.notifyOne ∉ (request_completed_handler true running .cancelled r q).1
      ∧ (request_completed_handler true running .cancelled r q).2 = q := by
  intro running r q
  cases running <;>
    simp [request_completed_handler]

/-- Witness for C8 with request 5 on an empty FIFO: the running-flag
trace ends in a resubmission after the lock release, and a cancelled
request leaves the FIFO empty. -/
theorem C8_completion_handler_trace_witness :
    HandlerEvent.push 5 ∈ (request_completed_handler true true .complete 5 []).1
    ∧ (request_completed_handler true true .complete 5 []).1
        = [.acqCtx, .acqQueue, .push 5, .notifyOne, .relQueue, .resubmit 5, .relCtx]
    ∧ (request_completed_handler true true .cancelled 5 []).2 = [] := by
  obtain ⟨h1, h2, h3, h4, h5, h6, h7, h8, h9⟩ := C8_completion_handler_trace true 5 []
  exact ⟨h1, h4 rfl, h9⟩

/-! ## Camera interface (camera_interface.c) -/

/-- The backend selector of `camera_interface.h`. -/
inductive CameraType where
  | imx477
  | emulated
deriving DecidableEq, Repr

/-- A captured frame's out-parameters (buffer contents abstracted). -/
structure CapturedFrame where
  width : ℤ
  height : ℤ
  size : ℕ
deriving DecidableEq, Repr

/-- The `struct Camera` of camera_interface.c: backend type plus the
cached width and height fields. -/
structure Camera where
  ctype : CameraType
  width : ℤ
  height : ℤ
deriving DecidableEq, Repr

/-- Embedding of `camera_interface_capture_frame`: the chosen backend's
`take_picture` result is an oracle pair (return code, frame written to
the out-parameters); the cached dimensions are overwritten only on a
zero return code, and the backend code is returned. -/
def camera_interface_capture_frame (cam : Camera)
    (imxResult emuResult : ℤ × CapturedFrame) : ℤ × Camera :=
  let r := match cam.ctype with
    | .imx477 => imxResult
    | .emulated => emuResult
  if r.1 = 0 then (0, { cam with width := r.2.width, height := r.2.height })
  else (r.1, cam)

/-- C10: when `camera_interface_capture_frame` returns failure the
cached width and height (indeed the whole Camera record) are unchanged;
when it returns success they are overwritten with the captured frame's
dimensions. -/
theorem C10_capture_frame_dimension_update :
    ∀ (cam : Camera) (imxResult emuResult : ℤ × CapturedFrame),
      ((camera_interface_capture_frame cam imxResult emuResult).1 ≠ 0 →
        (camera_interface_capture_frame cam imxResult emuResult).2 = cam)
      ∧ ((camera_interface_capture_frame cam imxResult emuResult).1 = 0 →
        (camera_interface_capture_frame cam imxResult emuResult).2.width
            = (match cam.ctype with
               | .imx477 => imxResult
               | .emulated => emuResult).2.width
        ∧ (camera_interface_capture_frame cam imxResult emuResult).2.height
            = (match cam.ctype with
               | .imx477 => imxResult
               | .emulated => emuResult).2.height) := by
  intro cam imxResult emuResult
  obtain ⟨ct, w, h⟩ := cam
  cases ct <;> by_cases hr : imxResult.1 = 0 <;> by_cases he : emuResult.1 = 0 <;>
    constructor <;> simp [camera_interface_capture_frame, hr, he]

/-- Witness for C10: a failing backend call leaves the 640x480 camera
unchanged; a succeeding one overwrites the dimensions with 1920x1080. -/
theorem C10_capture_frame_dimension_update_witness :
    (camera_interface_capture_frame ⟨.imx477, 640, 480⟩ (-1, ⟨9, 9, 9⟩) (0, ⟨7, 7, 7⟩)).2
        = ⟨.imx477, 640, 480⟩
    ∧ (camera_interface_capture_frame ⟨.imx477, 640, 480⟩ (0, ⟨1920, 1080, 0⟩)
        (-1, ⟨7, 7, 7⟩)).2.width = 1920 :=
  ⟨(C10_capture_frame_dimension_update ⟨.imx477, 640, 480⟩ (-1, ⟨9, 9, 9⟩)
      (0, ⟨7, 7, 7⟩)).1 (by decide),
   (((C10_capture_frame_dimension_update ⟨.imx477, 640, 480⟩ (0, ⟨1920, 1080, 0⟩)
      (-1, ⟨7, 7, 7⟩)).2 (by decide)).1)⟩

/-- C9: an integer id is a valid marker id exactly when its category is
not INVALID, and the valid ids are exactly 1-10, 20-23, 36, 41 and 47. -/
theorem C9_valid_id_iff_category :
    ∀ id : ℤ,
      (rod_config_is_valid_marker_id id = true
        ↔ rod_config_get_marker_category id ≠ MarkerCategory.INVALID)
      ∧ (rod_config_is_valid_marker_id id = true
        ↔ ((1 ≤ id ∧ id ≤ 10) ∨ (20 ≤ id ∧ id ≤ 23) ∨ id = 36 ∨ id = 41 ∨ id = 47)) := by
  intro id
  constructor
  · unfold rod_config_get_marker_category
    split_ifs with h1 h2 h3 h4 h5 h6 <;>
      simp [rod_config_is_valid_marker_id] <;> omega
  · simp [rod_config_is_valid_marker_id]

end ROD
